import Mathlib

/-!
Verification of the procedural dungeon generator
(src/src/utils/DungeonGenerator.ts) of the Graphium virtual tabletop.

The generator is shallowly embedded: coordinates are exact rationals,
JavaScript Math.floor is Int.floor, and the ambient Math.random() source is
made explicit as a stream of rationals consumed one value per call (the
source performs its random calls in a fixed sequential order, so a stream
indexed by call number is a faithful rendering).  Drawing ids produced by
crypto.randomUUID() are outside the model: no claim mentions them.
-/

namespace DungeonGen

/-- Room: axis-aligned rectangle in world pixel coordinates
(interface Room in DungeonGenerator.ts). -/
structure Room where
  x : ℚ
  y : ℚ
  width : ℚ
  height : ℚ
deriving DecidableEq, Repr

/-- Point: 2D pixel coordinate (interface Point in DungeonGenerator.ts). -/
structure Point where
  x : ℚ
  y : ℚ
deriving DecidableEq, Repr

/-- DungeonGeneratorOptions after the constructor has filled the defaults
(the constructor makes every field concrete, so the embedded record is the
Required version).  numRooms drives the placement loop count. -/
structure Options where
  numRooms : ℕ
  minRoomSize : ℚ
  maxRoomSize : ℚ
  gridSize : ℚ
  canvasWidth : ℚ
  canvasHeight : ℚ
  wallColor : String
  wallSize : ℚ
deriving DecidableEq, Repr

/-- The constructor defaults: minRoomSize 3, maxRoomSize 8, gridSize 50,
canvas 1920 by 1080, wall color and size defaults. -/
def defaultOpts (numRooms : ℕ) : Options :=
  { numRooms := numRooms
    minRoomSize := 3
    maxRoomSize := 8
    gridSize := 50
    canvasWidth := 1920
    canvasHeight := 1080
    wallColor := "#ff0000"
    wallSize := 8 }

/-- Drawing: a wall polyline with a flat coordinate list
(interface Drawing in the game store; tool is always the wall tool here).
The crypto.randomUUID() id is not modelled. -/
structure Drawing where
  tool : String
  points : List ℚ
  color : String
  size : ℚ
deriving DecidableEq, Repr

/-- Shorthand for the Drawing records the generator pushes. -/
def mkWall (o : Options) (pts : List ℚ) : Drawing :=
  { tool := "wall", points := pts, color := o.wallColor, size := o.wallSize }

/-- Explicit random source: the stream holds the successive values returned
by Math.random() (each in the interval from 0 inclusive to 1 exclusive for a
real JavaScript engine); idx is the number of values consumed so far. -/
structure Rng where
  stream : ℕ → ℚ
  idx : ℕ

/-- One Math.random() call: yields the next stream value and advances. -/
def Rng.next (g : Rng) : ℚ × Rng :=
  (g.stream g.idx, { stream := g.stream, idx := g.idx + 1 })

/-- A stream is valid when every value lies in the half-open unit interval,
as Math.random() guarantees. -/
def ValidStream (s : ℕ → ℚ) : Prop := ∀ n, 0 ≤ s n ∧ s n < 1

/-- generateRandomRoom: random size in grid cells (inclusive range
minRoomSize..maxRoomSize via floor of a scaled random), converted to pixels,
and a random grid-snapped position.  The four Math.random() calls happen in
source order: widthCells, heightCells, x, y. -/
def generateRandomRoom (o : Options) (g : Rng) : Room × Rng :=
  let r1 := (g.next).1
  let g1 := (g.next).2
  let r2 := (g1.next).1
  let g2 := (g1.next).2
  let widthCells : ℚ := (⌊r1 * (o.maxRoomSize - o.minRoomSize + 1)⌋ : ℚ) + o.minRoomSize
  let heightCells : ℚ := (⌊r2 * (o.maxRoomSize - o.minRoomSize + 1)⌋ : ℚ) + o.minRoomSize
  let width := widthCells * o.gridSize
  let height := heightCells * o.gridSize
  let maxX : ℤ := ⌊(o.canvasWidth - width) / o.gridSize⌋
  let maxY : ℤ := ⌊(o.canvasHeight - height) / o.gridSize⌋
  let r3 := (g2.next).1
  let g3 := (g2.next).2
  let r4 := (g3.next).1
  let g4 := (g3.next).2
  let x : ℚ := (⌊r3 * (maxX : ℚ)⌋ : ℚ) * o.gridSize
  let y : ℚ := (⌊r4 * (maxY : ℚ)⌋ : ℚ) * o.gridSize
  ({ x := x, y := y, width := width, height := height }, g4)

/-- The per-pair overlap test of hasOverlap, as a proposition: the candidate
rectangle strictly meets the existing rectangle enlarged by the padding. -/
def overlapRects (pad : ℚ) (a b : Room) : Prop :=
  a.x < b.x + b.width + pad ∧ a.x + a.width > b.x - pad ∧
  a.y < b.y + b.height + pad ∧ a.y + a.height > b.y - pad

instance (pad : ℚ) (a b : Room) : Decidable (overlapRects pad a b) := by
  unfold overlapRects; infer_instance

/-- The body of hasOverlap's loop for one existing room. -/
def overlapsOne (pad : ℚ) (a b : Room) : Bool :=
  decide (overlapRects pad a b)

/-- hasOverlap: padding is two grid cells; true when any accepted room
triggers the overlap condition (the source loop returns true early). -/
def hasOverlap (o : Options) (newRoom : Room) (rooms : List Room) : Bool :=
  rooms.any (fun room => overlapsOne (o.gridSize * 2) newRoom room)

/-- The inner while loop of generate: up to the given fuel (50 in the
source) candidate rooms are generated; the first candidate that is accepted
(empty list, or no overlap) is appended and the loop stops.  The third
component counts the candidates generated, mirroring the source's attempts
counter; on exhausted fuel the room list is returned unchanged (the room is
silently skipped, no error value exists). -/
def tryPlace (o : Options) (rooms : List Room) (g : Rng) : ℕ → List Room × Rng × ℕ
  | 0 => (rooms, g, 0)
  | fuel + 1 =>
    let cand := generateRandomRoom o g
    if rooms.isEmpty || ! hasOverlap o cand.1 rooms then
      (rooms ++ [cand.1], cand.2, 1)
    else
      let rest := tryPlace o rooms cand.2 fuel
      (rest.1, rest.2.1, rest.2.2 + 1)

/-- The outer placement loop of generate: one tryPlace round (fuel 50) per
requested room, threading the room list and the random source; the count
component totals the candidates generated. -/
def placeRooms (o : Options) : ℕ → List Room → Rng → List Room × Rng × ℕ
  | 0, rooms, g => (rooms, g, 0)
  | n + 1, rooms, g =>
    let t := tryPlace o rooms g 50
    let rest := placeRooms o n t.1 t.2.1
    (rest.1, rest.2.1, t.2.2 + rest.2.2)

/-- The center of a room (getRoomCenter). -/
def getRoomCenter (room : Room) : Point :=
  { x := room.x + room.width / 2, y := room.y + room.height / 2 }

/-- getConnectionPoint: picks the edge of room1 facing room2 by comparing
the absolute center deltas, and returns the midpoint of that edge. -/
def getConnectionPoint (room1 room2 : Room) : Point :=
  let center1 := getRoomCenter room1
  let center2 := getRoomCenter room2
  let dx := center2.x - center1.x
  let dy := center2.y - center1.y
  if |dx| > |dy| then
    if dx > 0 then
      { x := room1.x + room1.width, y := room1.y + room1.height / 2 }
    else
      { x := room1.x, y := room1.y + room1.height / 2 }
  else
    if dy > 0 then
      { x := room1.x + room1.width / 2, y := room1.y + room1.height }
    else
      { x := room1.x + room1.width / 2, y := room1.y }

/-- Doorway: the source records doorways in a Map keyed by Room object
identity; here the index of the room in the sorted accepted list plays the
role of the object identity (the arena-and-index rendering), alongside the
room value itself and the doorway point. -/
structure Doorway where
  idx : ℕ
  room : Room
  point : Point
deriving DecidableEq, Repr

/-- createCorridor: L-shaped corridor between consecutive rooms.  Records
the two connection points as doorways, draws four wall segments (two per
leg) around a path through one bend, choosing horizontal-first when the
random value exceeds one half, after nudging both connection points one
pixel away from their rooms.  i1 and i2 are the identities (sorted-list
indices) of room1 and room2.  Consumes exactly one random value. -/
def createCorridor (o : Options) (i1 i2 : ℕ) (room1 room2 : Room) (g : Rng) :
    List Drawing × List Doorway × Rng :=
  let corridorWidth := o.gridSize
  let start := getConnectionPoint room1 room2
  let stop := getConnectionPoint room2 room1
  let doorways : List Doorway := [⟨i1, room1, start⟩, ⟨i2, room2, stop⟩]
  let r := (g.next).1
  let g1 := (g.next).2
  let horizontalFirst := r > 1/2
  let isStartHorizontal := start.x = room1.x ∨ start.x = room1.x + room1.width
  let isEndHorizontal := stop.x = room2.x ∨ stop.x = room2.x + room2.width
  let offset : ℚ := 1
  let aS : Point :=
    if isStartHorizontal then
      { x := start.x + (if start.x = room1.x then -offset else offset), y := start.y }
    else
      { x := start.x, y := start.y + (if start.y = room1.y then -offset else offset) }
  let aE : Point :=
    if isEndHorizontal then
      { x := stop.x + (if stop.x = room2.x then -offset else offset), y := stop.y }
    else
      { x := stop.x, y := stop.y + (if stop.y = room2.y then -offset else offset) }
  if horizontalFirst then
    let bend : Point := { x := aE.x, y := aS.y }
    ([ mkWall o [aS.x, aS.y - corridorWidth/2, bend.x, bend.y - corridorWidth/2],
       mkWall o [aS.x, aS.y + corridorWidth/2, bend.x, bend.y + corridorWidth/2],
       mkWall o [aE.x - corridorWidth/2, bend.y, aE.x - corridorWidth/2, aE.y],
       mkWall o [aE.x + corridorWidth/2, bend.y, aE.x + corridorWidth/2, aE.y] ],
     doorways, g1)
  else
    let bend : Point := { x := aS.x, y := aE.y }
    ([ mkWall o [aS.x - corridorWidth/2, aS.y, bend.x - corridorWidth/2, bend.y],
       mkWall o [aS.x + corridorWidth/2, aS.y, bend.x + corridorWidth/2, bend.y],
       mkWall o [bend.x, aE.y - corridorWidth/2, aE.x, aE.y - corridorWidth/2],
       mkWall o [bend.x, aE.y + corridorWidth/2, aE.x, aE.y + corridorWidth/2] ],
     doorways, g1)

/-- The corridor loop of generate: connects each consecutive pair of the
sorted room list, accumulating corridor drawings and doorways in source
order; i is the index of the first room of the current pair. -/
def buildCorridors (o : Options) : List Room → ℕ → Rng → List Drawing × List Doorway × Rng
  | r1 :: r2 :: rest, i, g =>
    let c := createCorridor o i (i + 1) r1 r2 g
    let b := buildCorridors o (r2 :: rest) (i + 1) c.2.2
    (c.1 ++ b.1, c.2.1 ++ b.2.1, b.2.2)
  | _, _, g => ([], [], g)

/-- The doorway list recorded against the room of identity j, in recording
order (the Map lookup of the source). -/
def doorwaysFor (dws : List Doorway) (j : ℕ) : List Point :=
  (dws.filter (fun d => d.idx == j)).map (fun d => d.point)

/-- The sort key of a doorway point along a wall: y on a vertical wall,
x on a horizontal one. -/
def doorKey (isVertical : Bool) (p : Point) : ℚ :=
  if isVertical then p.y else p.x

/-- Stable insertion into a key-sorted list: the inserted element goes in
front of the first element whose key is not smaller, so elements inserted
from the original head end up before later equal-key elements, matching the
stable JavaScript Array.prototype.sort. -/
def insertDoor (isVertical : Bool) (p : Point) : List Point → List Point
  | [] => [p]
  | q :: rest =>
    if doorKey isVertical q < doorKey isVertical p then
      q :: insertDoor isVertical p rest
    else
      p :: q :: rest

/-- The doorway sort of createWallSegments (ascending along the wall). -/
def sortDoors (isVertical : Bool) : List Point → List Point
  | [] => []
  | p :: rest => insertDoor isVertical p (sortDoors isVertical rest)

/-- One iteration of the door loop inside createWallSegments: computes the
gap ends (half a grid cell each side of the doorway point), emits the wall
piece from the running position to the gap when the traversal coordinate
leaves more than one pixel, and continues after the gap. -/
def wallSegStep (o : Options) (doorSize : ℚ) (isVertical : Bool)
    (acc : Point × List Drawing) (door : Point) : Point × List Drawing :=
  let current := acc.1
  let doorStart : Point :=
    if isVertical then { x := door.x, y := door.y - doorSize/2 }
    else { x := door.x - doorSize/2, y := door.y }
  let doorEnd : Point :=
    if isVertical then { x := door.x, y := door.y + doorSize/2 }
    else { x := door.x + doorSize/2, y := door.y }
  let hasSegmentBefore :=
    if isVertical then current.y < doorStart.y - 1 else current.x < doorStart.x - 1
  if hasSegmentBefore then
    (doorEnd, acc.2 ++ [mkWall o [current.x, current.y, doorStart.x, doorStart.y]])
  else
    (doorEnd, acc.2)

/-- createWallSegments: a whole wall when there is no doorway, otherwise the
pieces around the sorted door gaps plus the final piece after the last gap,
each piece guarded by the more-than-one-pixel test of the source. -/
def createWallSegments (o : Options) (wStart wEnd : Point) (doors : List Point)
    (isVertical : Bool) : List Drawing :=
  if doors = [] then
    [mkWall o [wStart.x, wStart.y, wEnd.x, wEnd.y]]
  else
    let doorSize := o.gridSize
    let sortedDoors := sortDoors isVertical doors
    let fin := sortedDoors.foldl (wallSegStep o doorSize isVertical) (wStart, [])
    let hasSegmentAfter :=
      if isVertical then fin.1.y < wEnd.y - 1 else fin.1.x < wEnd.x - 1
    if hasSegmentAfter then
      fin.2 ++ [mkWall o [fin.1.x, fin.1.y, wEnd.x, wEnd.y]]
    else
      fin.2

/-- createRoomWalls: a single closed five-point rectangle when the room has
no doorways; otherwise the doorways are classified onto the four edges with
tolerance half a grid cell and each edge is built by createWallSegments, in
source order: top (left to right), right (top to bottom), bottom (right to
left), left (bottom to top). -/
def createRoomWalls (o : Options) (room : Room) (doorways : List Point) : List Drawing :=
  let x := room.x
  let y := room.y
  let width := room.width
  let height := room.height
  if doorways = [] then
    [mkWall o [x, y, x + width, y, x + width, y + height, x, y + height, x, y]]
  else
    let threshold := o.gridSize / 2
    let topDoors := doorways.filter (fun d => decide (|d.y - y| < threshold))
    let bottomDoors := doorways.filter (fun d => decide (|d.y - (y + height)| < threshold))
    let leftDoors := doorways.filter (fun d => decide (|d.x - x| < threshold))
    let rightDoors := doorways.filter (fun d => decide (|d.x - (x + width)| < threshold))
    createWallSegments o { x := x, y := y } { x := x + width, y := y } topDoors false
    ++ createWallSegments o { x := x + width, y := y } { x := x + width, y := y + height } rightDoors true
    ++ createWallSegments o { x := x + width, y := y + height } { x := x, y := y + height } bottomDoors false
    ++ createWallSegments o { x := x, y := y + height } { x := x, y := y } leftDoors true

/-- The room sort key of generate: horizontal center. -/
def roomCenterX (room : Room) : ℚ := room.x + room.width / 2

/-- Stable insertion by ascending horizontal center (see insertDoor for the
stability convention). -/
def insertRoom (r : Room) : List Room → List Room
  | [] => [r]
  | s :: rest =>
    if roomCenterX s < roomCenterX r then
      s :: insertRoom r rest
    else
      r :: s :: rest

/-- The room sort of generate (ascending horizontal center, stable). -/
def sortRooms : List Room → List Room
  | [] => []
  | r :: rest => insertRoom r (sortRooms rest)

/-- Door orientation values of the Door entity. -/
inductive DoorOrientation
  | horizontal
  | vertical
deriving DecidableEq, Repr

/-- Door output entity: id not modelled, geometric fields exact. -/
structure Door where
  x : ℚ
  y : ℚ
  orientation : DoorOrientation
  isOpen : Bool
  isLocked : Bool
  size : ℚ
  thickness : ℚ
  swingDirection : String
deriving DecidableEq, Repr

/-- Modelled from the spec: the Door-entity construction is absent from the
source under src (src generate returns only Drawing values; the repository
tests consume result.doors).  Per spec section 4.1 step 6 one Door is
created per doorway, its orientation derived from the matched edge
classification, the interactive state defaulted by the Door schema. -/
def mkDoor (o : Options) (d : Doorway) : Door :=
  { x := d.point.x
    y := d.point.y
    orientation :=
      if d.point.x = d.room.x ∨ d.point.x = d.room.x + d.room.width then
        DoorOrientation.vertical
      else
        DoorOrientation.horizontal
    isOpen := false
    isLocked := false
    size := o.gridSize
    thickness := 4
    swingDirection := "inward" }

/-- The result of generate: wall drawings, doors, and the accepted room list
(the latter exposed by getRooms).  Modelled from the spec for the doors
component: the source returns only the drawings, the spec and the tests
give the paired drawings-and-doors result shape. -/
structure GenResult where
  drawings : List Drawing
  doors : List Door
  rooms : List Room

/-- generate: place rooms (numRooms rounds, fuel 50 each), sort by
horizontal center, connect consecutive rooms with corridors collecting the
doorways, then draw each room's walls with its doorway gaps.  Corridor
drawings precede room-wall drawings as in the source push order. -/
def generate (o : Options) (g : Rng) : GenResult :=
  let placed := placeRooms o o.numRooms [] g
  let rooms := sortRooms placed.1
  let c := buildCorridors o rooms 0 placed.2.1
  let roomWalls :=
    (rooms.enum.map (fun e => createRoomWalls o e.2 (doorwaysFor c.2.1 e.1))).flatten
  { drawings := c.1 ++ roomWalls
    doors := c.2.1.map (mkDoor o)
    rooms := rooms }

/-- getRooms accessor. -/
def getRooms (res : GenResult) : List Room := res.rooms

/-- Modelled from the spec: the seeded PRNG is absent from the source under
src (the source reads ambient Math.random(); the seed option appears only
in the repository tests).  Spec section 9 prescribes an explicit linear
congruential generator threaded through every randomized step; this is the
classic 32-bit LCG step. -/
def lcgNext (s : ℕ) : ℕ := (1664525 * s + 1013904223) % 4294967296

/-- Iterated LCG state from a seed. -/
def lcgState (seed : ℕ) : ℕ → ℕ
  | 0 => seed % 4294967296
  | n + 1 => lcgNext (lcgState seed n)

/-- Modelled from the spec: the random stream a seed determines, each value
the next LCG state scaled into the unit interval. -/
def seedStream (seed : ℕ) (n : ℕ) : ℚ := (lcgState seed (n + 1) : ℚ) / 4294967296

/-- generate with the seeded source starting at index zero. -/
def generateSeeded (o : Options) (seed : ℕ) : GenResult :=
  generate o { stream := seedStream seed, idx := 0 }

/-- The first coordinate pair of a wall drawing. -/
def wallStartPt (d : Drawing) : List ℚ := d.points.take 2

/-- The last coordinate pair of a wall drawing. -/
def wallEndPt (d : Drawing) : List ℚ := d.points.drop (d.points.length - 2)

/-- No drawing in the list is a zero-length segment (identical endpoint
pairs). -/
def NoDegenerateSegs (l : List Drawing) : Prop :=
  ∀ d ∈ l, wallStartPt d ≠ wallEndPt d

/-- Two rooms are separated when the overlap test with the given padding is
false for the pair. -/
def Sep (o : Options) (a b : Room) : Prop :=
  overlapsOne (o.gridSize * 2) a b = false

/-- Well-formedness of an accepted room: position an integer multiple of the
grid size, extent a positive whole number of grid cells between the
configured minimum and maximum. -/
def RoomWellFormed (o : Options) (r : Room) : Prop :=
  (∃ a : ℤ, r.x = (a : ℚ) * o.gridSize) ∧
  (∃ b : ℤ, r.y = (b : ℚ) * o.gridSize) ∧
  (∃ wc : ℕ, r.width = (wc : ℚ) * o.gridSize ∧
    o.minRoomSize ≤ (wc : ℚ) ∧ (wc : ℚ) ≤ o.maxRoomSize) ∧
  (∃ hc : ℕ, r.height = (hc : ℚ) * o.gridSize ∧
    o.minRoomSize ≤ (hc : ℚ) ∧ (hc : ℚ) ≤ o.maxRoomSize) ∧
  0 < r.width ∧ 0 < r.height

/-- Every room of the list is well formed. -/
def AllRoomsWellFormed (o : Options) (l : List Room) : Prop :=
  ∀ r ∈ l, RoomWellFormed o r

/-- The random stream of the degenerate-corridor run: two 3-by-3-cell rooms
at x 0, stacked at y 0 and y 250 (value five eighteenths picks grid row 5),
then value three quarters makes the corridor horizontal-first. -/
def cexStream : ℕ → ℚ :=
  fun n => if n == 7 then 5/18 else if n == 8 then 3/4 else 0

/-- The options of the degenerate-corridor run. -/
def cexOpts : Options := defaultOpts 2

/-- The random source of the degenerate-corridor run. -/
def cexRng : Rng := { stream := cexStream, idx := 0 }

/-- The first room the degenerate-corridor run accepts. -/
def roomA : Room := { x := 0, y := 0, width := 150, height := 150 }

/-- The second room the degenerate-corridor run accepts. -/
def roomB : Room := { x := 0, y := 250, width := 150, height := 150 }

/-- Claim C1: with an explicit seed, two independent generate calls on the
same configuration agree on doors.length, drawings.length and on the whole
geometry coordinate for coordinate.  The seeded source is modelled from the
spec (the src code reads ambient Math.random and has no seed option); under
the explicit-PRNG embedding both calls are the same pure application, so
every component coincides. -/
theorem generateSeeded_deterministic (o : Options) (seed : ℕ) :
    (generateSeeded o seed).doors.length = (generateSeeded o seed).doors.length ∧
    (generateSeeded o seed).drawings.length = (generateSeeded o seed).drawings.length ∧
    (generateSeeded o seed).drawings = (generateSeeded o seed).drawings ∧
    (generateSeeded o seed).doors = (generateSeeded o seed).doors ∧
    (generateSeeded o seed).rooms = (generateSeeded o seed).rooms :=
  ⟨rfl, rfl, rfl, rfl, rfl⟩

/-- Claim C3, failing input: a bottom edge traversed right to left (room at
the origin, 200 by 200, one doorway at its bottom midpoint) emits no wall
segment at all, where the claim promises a segment before and one after the
gap: the more-than-one-pixel guards compare with less-than in traversal
order and are never met when the traversal runs in the decreasing
direction. -/
theorem createWallSegments_bottom_edge_empty :
    createWallSegments (defaultOpts 5) { x := 200, y := 200 } { x := 0, y := 200 }
      [{ x := 100, y := 200 }] false = [] := by
  norm_num [createWallSegments, sortDoors, insertDoor, wallSegStep, doorKey, mkWall,
    defaultOpts]

/-- Claim C6, failing input: two grid-aligned 3-by-3-cell rooms side by
side; the connection point on the first room's right edge is its edge
midpoint (150, 75), and 75 is not an integer multiple of the grid size 50
(odd cell count halves the height off grid).  The repository's own test
asserts door coordinates are multiples of gridSize. -/
theorem getConnectionPoint_not_grid_aligned :
    getConnectionPoint { x := 0, y := 0, width := 150, height := 150 }
        { x := 250, y := 0, width := 150, height := 150 } =
      { x := 150, y := 75 } ∧
    ¬ ∃ k : ℤ, (75 : ℚ) = k * 50 := by
  refine ⟨by norm_num [getConnectionPoint, getRoomCenter], ?_⟩
  rintro ⟨k, hk⟩
  have h2 : ((2 * k : ℤ) : ℚ) = 3 := by push_cast; linarith
  have h3 : (2 * k : ℤ) = 3 := by exact_mod_cast h2
  omega

/-- One inner-loop round that accepts its first candidate. -/
lemma tryPlace_succ_accept (o : Options) (rooms : List Room) (g : Rng) (fuel : ℕ)
    (h : (rooms.isEmpty || ! hasOverlap o (generateRandomRoom o g).1 rooms) = true) :
    tryPlace o rooms g (fuel + 1) =
      (rooms ++ [(generateRandomRoom o g).1], (generateRandomRoom o g).2, 1) := by
  unfold tryPlace
  simp only [h, if_pos]

/-- The first candidate of the degenerate-corridor run. -/
lemma cex_roomA : generateRandomRoom cexOpts cexRng = (roomA, { stream := cexStream, idx := 4 }) := by
  norm_num [generateRandomRoom, Rng.next, cexRng, cexStream, cexOpts, defaultOpts, roomA]

/-- The second candidate of the degenerate-corridor run. -/
lemma cex_roomB :
    generateRandomRoom cexOpts { stream := cexStream, idx := 4 } =
      (roomB, { stream := cexStream, idx := 8 }) := by
  norm_num [generateRandomRoom, Rng.next, cexStream, cexOpts, defaultOpts, roomB]

/-- The second candidate passes the overlap check against the first: the
vertical gap is exactly the two-cell padding, and the overlap comparison is
strict. -/
lemma cex_no_overlap : hasOverlap cexOpts roomB [roomA] = false := by
  norm_num [hasOverlap, overlapsOne, overlapRects, roomA, roomB, cexOpts, defaultOpts]

/-- Room placement of the degenerate-corridor run. -/
lemma cex_placeRooms :
    placeRooms cexOpts 2 [] cexRng = ([roomA, roomB], { stream := cexStream, idx := 8 }, 2) := by
  have h2 : (2 : ℕ) = 1 + 1 := rfl
  have h1 : (1 : ℕ) = 0 + 1 := rfl
  have h50 : (50 : ℕ) = 49 + 1 := rfl
  have ht1 : tryPlace cexOpts [] cexRng 50 = ([roomA], { stream := cexStream, idx := 4 }, 1) := by
    rw [h50, tryPlace_succ_accept _ _ _ _ (by simp), cex_roomA]
    rfl
  have ht2 : tryPlace cexOpts [roomA] { stream := cexStream, idx := 4 } 50 =
      ([roomA, roomB], { stream := cexStream, idx := 8 }, 1) := by
    rw [h50, tryPlace_succ_accept, cex_roomB]
    · rfl
    · rw [cex_roomB]
      simp [cex_no_overlap]
  rw [h2]
  unfold placeRooms
  rw [ht1]
  simp only
  rw [h1]
  unfold placeRooms
  rw [ht2]
  rfl

/-- The corridor of the degenerate-corridor run: vertically aligned rooms,
horizontal-first bend, so both horizontal leg walls are zero length. -/
lemma cex_corridor :
    createCorridor cexOpts 0 1 roomA roomB { stream := cexStream, idx := 8 } =
      ([ mkWall cexOpts [75, 126, 75, 126],
         mkWall cexOpts [75, 176, 75, 176],
         mkWall cexOpts [50, 151, 50, 249],
         mkWall cexOpts [100, 151, 100, 249] ],
       [⟨0, roomA, { x := 75, y := 150 }⟩, ⟨1, roomB, { x := 75, y := 250 }⟩],
       { stream := cexStream, idx := 9 }) := by
  norm_num [createCorridor, getConnectionPoint, getRoomCenter, Rng.next, cexStream,
    roomA, roomB, cexOpts, defaultOpts, mkWall]

/-- Claim C4, counterexample: in the concrete run of cexStream (two rooms
with the same horizontal center stacked vertically, corridor chosen
horizontal-first), generate emits corridor wall drawings whose two
endpoints coincide, for instance the segment [75, 126, 75, 126]: the
horizontal corridor leg has zero length because the two adjusted connection
points share their x coordinate. -/
theorem generate_emits_degenerate_wall :
    ¬ NoDegenerateSegs (generate cexOpts cexRng).drawings := by
  intro h
  have hnum : cexOpts.numRooms = 2 := rfl
  have hsort : sortRooms [roomA, roomB] = [roomA, roomB] := by
    norm_num [sortRooms, insertRoom, roomCenterX, roomA, roomB]
  have hmem : mkWall cexOpts [75, 126, 75, 126] ∈ (generate cexOpts cexRng).drawings := by
    simp only [generate, hnum, cex_placeRooms, hsort, buildCorridors]
    simp [cex_corridor]
  exact h _ hmem rfl

/-- A two-point wall drawing whose coordinates differ somewhere has
distinct endpoint pairs. -/
lemma mkWall_seg_distinct (o : Options) (a b c d : ℚ) (h : a ≠ c ∨ b ≠ d) :
    wallStartPt (mkWall o [a, b, c, d]) ≠ wallEndPt (mkWall o [a, b, c, d]) := by
  have h1 : wallStartPt (mkWall o [a, b, c, d]) = [a, b] := rfl
  have h2 : wallEndPt (mkWall o [a, b, c, d]) = [c, d] := rfl
  rw [h1, h2]
  intro hEq
  injection hEq with hac ht
  injection ht with hbd _
  rcases h with h | h
  · exact h hac
  · exact h hbd


lemma noDegenerate_append_single (l : List Drawing) (d : Drawing)
    (hl : NoDegenerateSegs l) (hd : wallStartPt d ≠ wallEndPt d) :
    NoDegenerateSegs (l ++ [d]) := by
  intro e he
  rcases List.mem_append.mp he with h | h
  · exact hl e h
  · rw [List.mem_singleton.mp h]
    exact hd

lemma wallSegStep_no_degenerate (o : Options) (doorSize : ℚ) (iv : Bool)
    (cur : Point) (acc : List Drawing) (p : Point) (h : NoDegenerateSegs acc) :
    NoDegenerateSegs ((wallSegStep o doorSize iv (cur, acc) p).2) := by
  cases iv with
  | false =>
    simp only [wallSegStep, Bool.false_eq_true, if_false]
    split
    case isTrue hb =>
      refine noDegenerate_append_single _ _ h (mkWall_seg_distinct _ _ _ _ _ (Or.inl ?_))
      intro hEq
      rw [hEq] at hb
      linarith
    case isFalse hb => exact h
  | true =>
    simp only [wallSegStep, if_true]
    split
    case isTrue hb =>
      refine noDegenerate_append_single _ _ h (mkWall_seg_distinct _ _ _ _ _ (Or.inr ?_))
      intro hEq
      rw [hEq] at hb
      linarith
    case isFalse hb => exact h

lemma wallSegStep_foldl_no_degenerate (o : Options) (doorSize : ℚ) (iv : Bool) :
    ∀ (ds : List Point) (cur : Point) (acc : List Drawing),
      NoDegenerateSegs acc →
      NoDegenerateSegs ((ds.foldl (wallSegStep o doorSize iv) (cur, acc)).2) := by
  intro ds
  induction ds with
  | nil =>
    intro cur acc h
    simpa using h
  | cons p rest ih =>
    intro cur acc h
    rw [List.foldl_cons]
    have h2 := wallSegStep_no_degenerate o doorSize iv cur acc p h
    have hpair : wallSegStep o doorSize iv (cur, acc) p =
        ((wallSegStep o doorSize iv (cur, acc) p).1, (wallSegStep o doorSize iv (cur, acc) p).2) := rfl
    rw [hpair]
    exact ih _ _ h2

/-- Claim C4 amended: every room-wall Drawing emitted by createWallSegments
has distinct endpoints (the emission guards require the traversal coordinate
to advance by more than one pixel, and the whole-edge wall needs distinct
edge ends); the original claim fails only for corridor walls, which can be
zero length when the adjusted connection points are axis-aligned. -/
theorem createWallSegments_no_degenerate (o : Options) (wStart wEnd : Point)
    (doors : List Point) (isVertical : Bool) (h : wStart ≠ wEnd) :
    NoDegenerateSegs (createWallSegments o wStart wEnd doors isVertical) := by
  unfold createWallSegments
  split
  case isTrue hds =>
    intro d hd
    rw [List.mem_singleton.mp hd]
    apply mkWall_seg_distinct
    by_contra hc
    push_neg at hc
    exact h (by cases wStart; cases wEnd; simp_all)
  case isFalse hds =>
    have hfold := wallSegStep_foldl_no_degenerate o o.gridSize isVertical
      (sortDoors isVertical doors) wStart [] (by intro d hd; simp at hd)
    cases isVertical with
    | false =>
      simp only [Bool.false_eq_true, if_false]
      split
      case isTrue hb =>
        refine noDegenerate_append_single _ _ hfold (mkWall_seg_distinct _ _ _ _ _ (Or.inl ?_))
        intro hEq
        rw [hEq] at hb
        linarith
      case isFalse hb => exact hfold
    | true =>
      simp only [if_true]
      split
      case isTrue hb =>
        refine noDegenerate_append_single _ _ hfold (mkWall_seg_distinct _ _ _ _ _ (Or.inr ?_))
        intro hEq
        rw [hEq] at hb
        linarith
      case isFalse hb => exact hfold


/-- Witness for the amended claim C4 at a concrete top edge with one
doorway. -/
theorem createWallSegments_no_degenerate_witness :
    ({ x := 0, y := 0 } : Point) ≠ { x := 200, y := 0 } ∧
    NoDegenerateSegs (createWallSegments (defaultOpts 5) { x := 0, y := 0 }
      { x := 200, y := 0 } [{ x := 100, y := 0 }] false) :=
  ⟨by norm_num [Point.mk.injEq],
   createWallSegments_no_degenerate (defaultOpts 5) _ _ _ _ (by norm_num [Point.mk.injEq])⟩


/-- Exhausting the fuel leaves the room list unchanged; otherwise exactly
one room is appended: in all cases the input list is a prefix of the
output, so placement never backtracks. -/
lemma tryPlace_append (o : Options) (rooms : List Room) :
    ∀ (fuel : ℕ) (g : Rng), ∃ t, (tryPlace o rooms g fuel).1 = rooms ++ t := by
  intro fuel
  induction fuel with
  | zero => exact fun g => ⟨[], by simp [tryPlace]⟩
  | succ n ih =>
    intro g
    unfold tryPlace
    dsimp only
    split
    · exact ⟨[(generateRandomRoom o g).1], rfl⟩
    · exact ih _

/-- Each inner round generates at most fuel candidates. -/
lemma tryPlace_count_le (o : Options) (rooms : List Room) :
    ∀ (fuel : ℕ) (g : Rng), (tryPlace o rooms g fuel).2.2 ≤ fuel := by
  intro fuel
  induction fuel with
  | zero => intro g; simp [tryPlace]
  | succ n ih =>
    intro g
    unfold tryPlace
    dsimp only
    split
    · simp
    · simpa using Nat.add_le_add_right (ih _) 1

/-- Each inner round appends at most one room. -/
lemma tryPlace_len_le (o : Options) (rooms : List Room) :
    ∀ (fuel : ℕ) (g : Rng), (tryPlace o rooms g fuel).1.length ≤ rooms.length + 1 := by
  intro fuel
  induction fuel with
  | zero => intro g; simp [tryPlace]
  | succ n ih =>
    intro g
    unfold tryPlace
    dsimp only
    split
    · simp
    · exact ih _

/-- The outer loop only ever appends rooms. -/
lemma placeRooms_append (o : Options) :
    ∀ (n : ℕ) (rooms : List Room) (g : Rng),
      ∃ t, (placeRooms o n rooms g).1 = rooms ++ t := by
  intro n
  induction n with
  | zero => exact fun rooms g => ⟨[], by simp [placeRooms]⟩
  | succ m ih =>
    intro rooms g
    obtain ⟨t1, ht1⟩ := tryPlace_append o rooms 50 g
    obtain ⟨t2, ht2⟩ := ih (tryPlace o rooms g 50).1 (tryPlace o rooms g 50).2.1
    refine ⟨t1 ++ t2, ?_⟩
    show (placeRooms o m (tryPlace o rooms g 50).1 (tryPlace o rooms g 50).2.1).1 = rooms ++ (t1 ++ t2)
    rw [ht2, ht1, List.append_assoc]

/-- The outer loop accepts at most one room per requested room. -/
lemma placeRooms_len_le (o : Options) :
    ∀ (n : ℕ) (rooms : List Room) (g : Rng),
      (placeRooms o n rooms g).1.length ≤ rooms.length + n := by
  intro n
  induction n with
  | zero => intro rooms g; simp [placeRooms]
  | succ m ih =>
    intro rooms g
    have h1 := tryPlace_len_le o rooms 50 g
    have h2 := ih (tryPlace o rooms g 50).1 (tryPlace o rooms g 50).2.1
    calc (placeRooms o (m + 1) rooms g).1.length
        = (placeRooms o m (tryPlace o rooms g 50).1 (tryPlace o rooms g 50).2.1).1.length := rfl
      _ ≤ (tryPlace o rooms g 50).1.length + m := h2
      _ ≤ rooms.length + 1 + m := Nat.add_le_add_right h1 m
      _ = rooms.length + (m + 1) := by omega

/-- The outer loop generates at most fifty candidates per requested room. -/
lemma placeRooms_count_le (o : Options) :
    ∀ (n : ℕ) (rooms : List Room) (g : Rng),
      (placeRooms o n rooms g).2.2 ≤ n * 50 := by
  intro n
  induction n with
  | zero => intro rooms g; simp [placeRooms]
  | succ m ih =>
    intro rooms g
    have h1 := tryPlace_count_le o rooms 50 g
    have h2 := ih (tryPlace o rooms g 50).1 (tryPlace o rooms g 50).2.1
    calc (placeRooms o (m + 1) rooms g).2.2
        = (tryPlace o rooms g 50).2.2
          + (placeRooms o m (tryPlace o rooms g 50).1 (tryPlace o rooms g 50).2.1).2.2 := rfl
      _ ≤ 50 + m * 50 := Nat.add_le_add h1 h2
      _ = (m + 1) * 50 := by ring

/-- Insertion produces a permutation of consing. -/
lemma insertRoom_perm (r : Room) : ∀ (l : List Room), (insertRoom r l).Perm (r :: l) := by
  intro l
  induction l with
  | nil => exact List.Perm.refl _
  | cons s t ih =>
    unfold insertRoom
    split
    · exact (ih.cons s).trans (List.Perm.swap r s t)
    · exact List.Perm.refl _

/-- The room sort permutes the accepted list. -/
lemma sortRooms_perm : ∀ (l : List Room), (sortRooms l).Perm l := by
  intro l
  induction l with
  | nil => exact List.Perm.refl _
  | cons r t ih => exact (insertRoom_perm r (sortRooms t)).trans (ih.cons r)

/-- Claim C9: generation is bounded and total: at most fifty candidates per
requested room, so at most numRooms times fifty candidate generations in
all; the accepted count never exceeds numRooms; and a round that fails only
leaves the list as a prefix of the result (rooms are skipped silently, no
error value exists and nothing is backtracked). -/
theorem generate_bounded (o : Options) (g : Rng) :
    (placeRooms o o.numRooms [] g).2.2 ≤ o.numRooms * 50 ∧
    (getRooms (generate o g)).length ≤ o.numRooms ∧
    (∀ (rooms : List Room) (g2 : Rng), (tryPlace o rooms g2 50).2.2 ≤ 50) ∧
    (∀ (rooms : List Room) (g2 : Rng) (fuel : ℕ),
      ∃ t, (tryPlace o rooms g2 fuel).1 = rooms ++ t) := by
  refine ⟨placeRooms_count_le o o.numRooms [] g, ?_, fun rooms g2 => tryPlace_count_le o rooms 50 g2,
    fun rooms g2 fuel => tryPlace_append o rooms fuel g2⟩
  have h1 := placeRooms_len_le o o.numRooms [] g
  have h2 : (getRooms (generate o g)).length = (placeRooms o o.numRooms [] g).1.length :=
    (sortRooms_perm (placeRooms o o.numRooms [] g).1).length_eq
  simpa [h2] using h1

/-- Claim C10: the first candidate of a run is accepted unconditionally
(the overlap test is bypassed while the accepted list is empty), and with
at least one requested room the accepted list getRooms returns is never
empty. -/
theorem generate_first_room_accepted (o : Options) (g : Rng) (h : 1 ≤ o.numRooms) :
    (tryPlace o [] g 50).1 = [(generateRandomRoom o g).1] ∧
    1 ≤ (getRooms (generate o g)).length := by
  refine ⟨rfl, ?_⟩
  obtain ⟨m, hm⟩ : ∃ m, o.numRooms = m + 1 := ⟨o.numRooms - 1, by omega⟩
  have hlen : (getRooms (generate o g)).length = (placeRooms o o.numRooms [] g).1.length :=
    (sortRooms_perm (placeRooms o o.numRooms [] g).1).length_eq
  rw [hlen, hm]
  have hstep : (placeRooms o (m + 1) [] g).1
      = (placeRooms o m (tryPlace o [] g 50).1 (tryPlace o [] g 50).2.1).1 := rfl
  rw [hstep]
  obtain ⟨t, ht⟩ := placeRooms_append o m (tryPlace o [] g 50).1 (tryPlace o [] g 50).2.1
  rw [ht]
  have hfirst : (tryPlace o [] g 50).1 = [(generateRandomRoom o g).1] := rfl
  rw [hfirst]
  simp

/-- Witness for claim C10 at three requested rooms and the all-zero
stream. -/
theorem generate_first_room_accepted_witness :
    1 ≤ (defaultOpts 3).numRooms ∧
    1 ≤ (getRooms (generate (defaultOpts 3) { stream := fun _ => 0, idx := 0 })).length :=
  ⟨by decide,
   (generate_first_room_accepted (defaultOpts 3) { stream := fun _ => 0, idx := 0 }
     (by decide)).2⟩

/-- Claim C8: with a single requested room the run returns no door and a
single drawing, the closed five-point rectangle of the one accepted room
(ten coordinates, first point equal to last point). -/
theorem generate_single_room (o : Options) (g : Rng) (h : o.numRooms = 1) :
    (generate o g).doors.length = 0 ∧
    ∃ dr, (generate o g).drawings = [dr] ∧ dr.points.length = 10 ∧
      dr.points.take 2 = dr.points.drop 8 := by
  rcases o with ⟨nr, mn, mx, gs, cw, ch, wc, ws⟩
  simp only at h
  subst h
  exact ⟨rfl, _, rfl, rfl, rfl⟩

/-- Witness for claim C8 with the default configuration at one room and the
all-zero stream. -/
theorem generate_single_room_witness :
    (defaultOpts 1).numRooms = 1 ∧
    ((generate (defaultOpts 1) { stream := fun _ => 0, idx := 0 }).doors.length = 0 ∧
     ∃ dr, (generate (defaultOpts 1) { stream := fun _ => 0, idx := 0 }).drawings = [dr] ∧
       dr.points.length = 10 ∧ dr.points.take 2 = dr.points.drop 8) :=
  ⟨rfl, generate_single_room (defaultOpts 1) { stream := fun _ => 0, idx := 0 } rfl⟩


/-- Each corridor contributes exactly four wall drawings and exactly two
doorways, whichever leg order the random choice picks. -/
lemma createCorridor_lengths (o : Options) (i1 i2 : ℕ) (a b : Room) (g : Rng) :
    (createCorridor o i1 i2 a b g).1.length = 4 ∧
    (createCorridor o i1 i2 a b g).2.1.length = 2 := by
  unfold createCorridor
  dsimp only
  split
  · exact ⟨rfl, rfl⟩
  · exact ⟨rfl, rfl⟩

/-- The corridor loop over a room list produces two doorways and four
drawings per consecutive pair. -/
lemma buildCorridors_lengths (o : Options) :
    ∀ (rooms : List Room) (i : ℕ) (g : Rng),
      (buildCorridors o rooms i g).2.1.length = 2 * (rooms.length - 1) ∧
      (buildCorridors o rooms i g).1.length = 4 * (rooms.length - 1)
  | [], _, _ => by simp [buildCorridors]
  | [_], _, _ => by simp [buildCorridors]
  | r1 :: r2 :: rest, i, g => by
    have ih := buildCorridors_lengths o (r2 :: rest) (i + 1)
      (createCorridor o i (i + 1) r1 r2 g).2.2
    have hc := createCorridor_lengths o i (i + 1) r1 r2 g
    unfold buildCorridors
    dsimp only
    rw [List.length_append, List.length_append, hc.1, hc.2, ih.1, ih.2]
    refine ⟨?_, ?_⟩ <;> simp <;> omega

/-- Claim C2: the result couples the drawings list with the doors list; the
doors number exactly twice the accepted room count less one, and the
corridor loop emits exactly two doorways and four wall drawings per
consecutive pair, hence exactly one corridor per pair (accepted rooms less
one corridors in all). -/
theorem generate_doors_count (o : Options) (g : Rng) :
    (generate o g).doors.length = 2 * ((generate o g).rooms.length - 1) ∧
    (∀ (rooms : List Room) (i : ℕ) (g2 : Rng),
      (buildCorridors o rooms i g2).2.1.length = 2 * (rooms.length - 1) ∧
      (buildCorridors o rooms i g2).1.length = 4 * (rooms.length - 1)) := by
  refine ⟨?_, fun rooms i g2 => buildCorridors_lengths o rooms i g2⟩
  have hdoors : (generate o g).doors =
      ((buildCorridors o (generate o g).rooms 0
        (placeRooms o o.numRooms [] g).2.1).2.1).map (mkDoor o) := rfl
  rw [hdoors, List.length_map]
  exact (buildCorridors_lengths o _ 0 _).1

/-- Separation is symmetric: the strict overlap test is symmetric under
swapping the rectangles (padding on either side rearranges to the same
inequalities). -/
lemma sep_symmetric (o : Options) : Symmetric (Sep o) := by
  intro a b h
  simp only [Sep, overlapsOne, decide_eq_false_iff_not, overlapRects] at h ⊢
  rintro ⟨h1, h2, h3, h4⟩
  exact h ⟨by linarith, by linarith, by linarith, by linarith⟩

/-- The inner round preserves pairwise separation: an accepted candidate
either joins the empty list or has passed the overlap test against every
accepted room. -/
lemma tryPlace_pairwise (o : Options) (rooms : List Room) :
    ∀ (fuel : ℕ) (g : Rng), rooms.Pairwise (Sep o) →
      ((tryPlace o rooms g fuel).1).Pairwise (Sep o) := by
  intro fuel
  induction fuel with
  | zero => intro g h; simpa [tryPlace] using h
  | succ n ih =>
    intro g h
    unfold tryPlace
    dsimp only
    split
    case isTrue hcond =>
      rw [List.pairwise_append]
      refine ⟨h, by simp, ?_⟩
      intro a ha b hb
      rw [List.mem_singleton.mp hb]
      have hcond2 : rooms.isEmpty = true ∨
          hasOverlap o (generateRandomRoom o g).1 rooms = false := by
        simpa using hcond
      rcases hcond2 with hemp | hno2
      · rw [List.isEmpty_iff.mp hemp] at ha
        simp at ha
      · have hall := List.any_eq_false.mp hno2 a ha
        apply sep_symmetric o
        simp only [Sep]
        simpa using hall
    case isFalse => exact ih _ h

/-- The outer loop preserves pairwise separation. -/
lemma placeRooms_pairwise (o : Options) :
    ∀ (n : ℕ) (rooms : List Room) (g : Rng), rooms.Pairwise (Sep o) →
      ((placeRooms o n rooms g).1).Pairwise (Sep o) := by
  intro n
  induction n with
  | zero => intro rooms g h; simpa [placeRooms] using h
  | succ m ih =>
    intro rooms g h
    exact ih _ _ (tryPlace_pairwise o rooms 50 g h)

/-- Claim C5: any two distinct rooms accepted in one run pass the
two-grid-cell padded overlap test in both directions: the invariant is
established candidate by candidate in the placement loop and survives the
center sort (a permutation). -/
theorem generate_rooms_separated (o : Options) (g : Rng) :
    ((generate o g).rooms).Pairwise (Sep o) := by
  have h1 := placeRooms_pairwise o o.numRooms [] g List.Pairwise.nil
  have hperm := sortRooms_perm (placeRooms o o.numRooms [] g).1
  exact (hperm.pairwise_iff (fun hxy => sep_symmetric o hxy)).mpr h1


/-- Bounds for the scaled-floor cell count: a unit-interval random scaled by
the inclusive span lands on an integer between zero and the span less
one. -/
lemma floor_unit_mul_bounds (r : ℚ) (hr0 : 0 ≤ r) (hr1 : r < 1) (m M : ℕ) (hmM : m ≤ M) :
    0 ≤ ⌊r * ((M : ℚ) - (m : ℚ) + 1)⌋ ∧
    ⌊r * ((M : ℚ) - (m : ℚ) + 1)⌋ ≤ (M : ℤ) - (m : ℤ) := by
  have hmq : (m : ℚ) ≤ (M : ℚ) := by exact_mod_cast hmM
  have hspan : (0 : ℚ) < (M : ℚ) - (m : ℚ) + 1 := by linarith
  constructor
  · exact Int.floor_nonneg.mpr (mul_nonneg hr0 (le_of_lt hspan))
  · have hlt : r * ((M : ℚ) - (m : ℚ) + 1) < (M : ℚ) - (m : ℚ) + 1 := by
      calc r * ((M : ℚ) - (m : ℚ) + 1) < 1 * ((M : ℚ) - (m : ℚ) + 1) :=
            mul_lt_mul_of_pos_right hr1 hspan
        _ = (M : ℚ) - (m : ℚ) + 1 := one_mul _
    have h2 : ⌊r * ((M : ℚ) - (m : ℚ) + 1)⌋ < (M : ℤ) - (m : ℤ) + 1 := by
      apply Int.floor_lt.mpr
      push_cast
      exact hlt
    omega

/-- The pixel extent computed from one random value is a whole positive
number of grid cells within the configured bounds. -/
lemma cellExtent_wellFormed (o : Options) (r : ℚ) (hr0 : 0 ≤ r) (hrlt : r < 1)
    (m M : ℕ) (hm : o.minRoomSize = (m : ℚ)) (hM : o.maxRoomSize = (M : ℚ))
    (hm1 : 1 ≤ m) (hmM : m ≤ M) (hg : 0 < o.gridSize) :
    ∃ wc : ℕ, ((⌊r * (o.maxRoomSize - o.minRoomSize + 1)⌋ : ℚ) + o.minRoomSize) * o.gridSize
        = (wc : ℚ) * o.gridSize ∧
      o.minRoomSize ≤ (wc : ℚ) ∧ (wc : ℚ) ≤ o.maxRoomSize ∧
      0 < ((⌊r * (o.maxRoomSize - o.minRoomSize + 1)⌋ : ℚ) + o.minRoomSize) * o.gridSize := by
  rw [hm, hM]
  obtain ⟨hk0, hk2⟩ := floor_unit_mul_bounds r hr0 hrlt m M hmM
  refine ⟨(⌊r * ((M : ℚ) - (m : ℚ) + 1)⌋).toNat + m, ?_, ?_, ?_, ?_⟩
  · have hkq : ((⌊r * ((M : ℚ) - (m : ℚ) + 1)⌋.toNat : ℤ) : ℚ)
        = ((⌊r * ((M : ℚ) - (m : ℚ) + 1)⌋ : ℤ) : ℚ) := by
      rw [Int.toNat_of_nonneg hk0]
    push_cast at hkq ⊢
    rw [hkq]
  · have : (0 : ℚ) ≤ (⌊r * ((M : ℚ) - (m : ℚ) + 1)⌋.toNat : ℚ) := by positivity
    push_cast
    linarith
  · have hle : ((⌊r * ((M : ℚ) - (m : ℚ) + 1)⌋.toNat : ℤ) : ℚ) ≤ (M : ℚ) - (m : ℚ) := by
      rw [Int.toNat_of_nonneg hk0]
      have h3 : ((⌊r * ((M : ℚ) - (m : ℚ) + 1)⌋ : ℤ) : ℚ) ≤ (((M : ℤ) - (m : ℤ) : ℤ) : ℚ) := by
        exact_mod_cast hk2
      push_cast at h3
      linarith
    push_cast at hle ⊢
    linarith
  · have hq0 : (0 : ℚ) ≤ (⌊r * ((M : ℚ) - (m : ℚ) + 1)⌋ : ℚ) := by exact_mod_cast hk0
    have hm1q : (1 : ℚ) ≤ (m : ℚ) := by exact_mod_cast hm1
    have : (0 : ℚ) < (⌊r * ((M : ℚ) - (m : ℚ) + 1)⌋ : ℚ) + (m : ℚ) := by linarith
    exact mul_pos this hg

/-- A candidate room is well formed whenever its two size randoms lie in
the unit interval and the configuration is sane (integral bounds, at least
one cell minimum, positive grid size). -/
lemma generateRandomRoom_wellFormed (o : Options) (g : Rng)
    (m M : ℕ) (hm : o.minRoomSize = (m : ℚ)) (hM : o.maxRoomSize = (M : ℚ))
    (hm1 : 1 ≤ m) (hmM : m ≤ M) (hg : 0 < o.gridSize)
    (ha0 : 0 ≤ g.stream g.idx) (ha1 : g.stream g.idx < 1)
    (hb0 : 0 ≤ g.stream (g.idx + 1)) (hb1 : g.stream (g.idx + 1) < 1) :
    RoomWellFormed o (generateRandomRoom o g).1 := by
  obtain ⟨wc, hwc, hwc1, hwc2, hwpos⟩ :=
    cellExtent_wellFormed o (g.stream g.idx) ha0 ha1 m M hm hM hm1 hmM hg
  obtain ⟨hc, hhc, hhc1, hhc2, hhpos⟩ :=
    cellExtent_wellFormed o (g.stream (g.idx + 1)) hb0 hb1 m M hm hM hm1 hmM hg
  refine ⟨⟨_, rfl⟩, ⟨_, rfl⟩, ⟨wc, ?_, hwc1, hwc2⟩, ⟨hc, ?_, hhc1, hhc2⟩, ?_, ?_⟩
  · exact hwc
  · exact hhc
  · exact hwpos
  · exact hhpos

/-- The inner round never changes the random stream, only the index. -/
lemma tryPlace_stream (o : Options) (rooms : List Room) :
    ∀ (fuel : ℕ) (g : Rng), ((tryPlace o rooms g fuel).2.1).stream = g.stream := by
  intro fuel
  induction fuel with
  | zero => intro g; rfl
  | succ n ih =>
    intro g
    unfold tryPlace
    dsimp only
    split
    · rfl
    · exact ih _

/-- Every room an inner round adds is a candidate produced from a source
with the same stream. -/
lemma tryPlace_provenance (o : Options) (rooms : List Room) :
    ∀ (fuel : ℕ) (g : Rng) (r : Room), r ∈ (tryPlace o rooms g fuel).1 →
      r ∈ rooms ∨ ∃ g2 : Rng, g2.stream = g.stream ∧ r = (generateRandomRoom o g2).1 := by
  intro fuel
  induction fuel with
  | zero =>
    intro g r hr
    left
    simpa [tryPlace] using hr
  | succ n ih =>
    intro g r
    unfold tryPlace
    dsimp only
    split
    · intro hr
      rcases List.mem_append.mp hr with h | h
      · exact Or.inl h
      · exact Or.inr ⟨g, rfl, List.mem_singleton.mp h⟩
    · intro hr
      rcases ih _ r hr with h | ⟨g2, hgs, hgr⟩
      · exact Or.inl h
      · exact Or.inr ⟨g2, by rw [hgs]; rfl, hgr⟩

/-- The outer loop never changes the random stream. -/
lemma placeRooms_stream (o : Options) :
    ∀ (n : ℕ) (rooms : List Room) (g : Rng),
      ((placeRooms o n rooms g).2.1).stream = g.stream := by
  intro n
  induction n with
  | zero => intro rooms g; rfl
  | succ m ih =>
    intro rooms g
    calc ((placeRooms o (m + 1) rooms g).2.1).stream
        = ((placeRooms o m (tryPlace o rooms g 50).1 (tryPlace o rooms g 50).2.1).2.1).stream := rfl
      _ = ((tryPlace o rooms g 50).2.1).stream := ih _ _
      _ = g.stream := tryPlace_stream o rooms 50 g

/-- Every room the outer loop accepts is a candidate produced from a source
with the same stream. -/
lemma placeRooms_provenance (o : Options) :
    ∀ (n : ℕ) (rooms : List Room) (g : Rng) (r : Room), r ∈ (placeRooms o n rooms g).1 →
      r ∈ rooms ∨ ∃ g2 : Rng, g2.stream = g.stream ∧ r = (generateRandomRoom o g2).1 := by
  intro n
  induction n with
  | zero =>
    intro rooms g r hr
    left
    simpa [placeRooms] using hr
  | succ m ih =>
    intro rooms g r hr
    have hr2 : r ∈ (placeRooms o m (tryPlace o rooms g 50).1 (tryPlace o rooms g 50).2.1).1 := hr
    rcases ih _ _ r hr2 with h | ⟨g2, hgs, hgr⟩
    · rcases tryPlace_provenance o rooms 50 g r h with h3 | ⟨g2, hgs, hgr⟩
      · exact Or.inl h3
      · exact Or.inr ⟨g2, hgs, hgr⟩
    · refine Or.inr ⟨g2, ?_, hgr⟩
      rw [hgs, tryPlace_stream o rooms 50 g]

/-- Claim C7: every accepted room sits on the grid (position an integer
multiple of gridSize on both axes) with extent a positive whole number of
cells between minRoomSize and maxRoomSize inclusive, for any valid random
stream and any sane configuration (integral size bounds of at least one
cell, minimum not above maximum, positive grid size). -/
theorem generate_rooms_grid_aligned (o : Options) (g : Rng)
    (hv : ValidStream g.stream)
    (m M : ℕ) (hm : o.minRoomSize = (m : ℚ)) (hM : o.maxRoomSize = (M : ℚ))
    (hm1 : 1 ≤ m) (hmM : m ≤ M) (hg : 0 < o.gridSize) :
    AllRoomsWellFormed o (generate o g).rooms := by
  intro r hr
  have hr2 : r ∈ (placeRooms o o.numRooms [] g).1 :=
    (sortRooms_perm (placeRooms o o.numRooms [] g).1).mem_iff.mp hr
  rcases placeRooms_provenance o o.numRooms [] g r hr2 with h | ⟨g2, hgs, hgr⟩
  · simp at h
  · rw [hgr]
    refine generateRandomRoom_wellFormed o g2 m M hm hM hm1 hmM hg ?_ ?_ ?_ ?_ <;>
      rw [hgs]
    · exact (hv _).1
    · exact (hv _).2
    · exact (hv _).1
    · exact (hv _).2

/-- Witness for claim C7: the default configuration at one room with the
all-zero stream. -/
theorem generate_rooms_grid_aligned_witness :
    ValidStream (fun _ => (0 : ℚ)) ∧
    (defaultOpts 1).minRoomSize = ((3 : ℕ) : ℚ) ∧
    (defaultOpts 1).maxRoomSize = ((8 : ℕ) : ℚ) ∧
    (1 ≤ 3 ∧ 3 ≤ 8 ∧ (0 : ℚ) < (defaultOpts 1).gridSize) ∧
    AllRoomsWellFormed (defaultOpts 1)
      (generate (defaultOpts 1) { stream := fun _ => 0, idx := 0 }).rooms := by
  have hv : ValidStream (fun _ => (0 : ℚ)) := fun n => ⟨le_refl 0, by norm_num⟩
  refine ⟨hv, by norm_num [defaultOpts], by norm_num [defaultOpts],
    ⟨by norm_num, by norm_num, by norm_num [defaultOpts]⟩, ?_⟩
  exact generate_rooms_grid_aligned (defaultOpts 1) { stream := fun _ => 0, idx := 0 }
    hv 3 8 (by norm_num [defaultOpts]) (by norm_num [defaultOpts]) (by norm_num)
    (by norm_num) (by norm_num [defaultOpts])

end DungeonGen




